import Mathlib

/-!
Shallow embedding of the dual-loop acquisition and query service
(`background.py`): date/geometry utilities, progress store, result cache,
acquisition scheduler, and request-queue worker, together with theorems
settling the spec claims about them.
-/

set_option maxRecDepth 4000

/-! ## String utilities: Python-style split on a single character -/

/-- Python `str.split(c)` on a character-list representation: always returns a
non-empty list of separator-free segments; the empty string splits to one
empty segment. -/
def splitOnChar (c : Char) : List Char → List (List Char)
  | [] => [[]]
  | x :: xs =>
    let r := splitOnChar c xs
    if x = c then [] :: r
    else
      match r with
      | [] => [[x]]
      | y :: ys => (x :: y) :: ys

/-- Number of occurrences of a character in a character list. -/
def countCh (c : Char) : List Char → ℕ
  | [] => 0
  | x :: xs => (if x = c then 1 else 0) + countCh c xs

theorem splitOnChar_ne_nil (c : Char) (l : List Char) : splitOnChar c l ≠ [] := by
  induction l with
  | nil => simp [splitOnChar]
  | cons x xs ih =>
    simp only [splitOnChar]
    by_cases hx : x = c
    · simp [hx]
    · simp only [hx, if_false]
      cases h : splitOnChar c xs with
      | nil => simp
      | cons y ys => simp

theorem splitOnChar_length (c : Char) (l : List Char) :
    (splitOnChar c l).length = countCh c l + 1 := by
  induction l with
  | nil => simp [splitOnChar, countCh]
  | cons x xs ih =>
    simp only [splitOnChar, countCh]
    by_cases hx : x = c
    · rw [if_pos hx, if_pos hx, List.length_cons, ih]
      omega
    · simp only [hx, if_false]
      cases h : splitOnChar c xs with
      | nil => exact absurd h (splitOnChar_ne_nil c xs)
      | cons y ys =>
        simp only [List.length_cons]
        rw [h] at ih
        simp only [List.length_cons] at ih
        omega

theorem splitOnChar_not_mem (c : Char) (l : List Char) :
    ∀ p ∈ splitOnChar c l, c ∉ p := by
  induction l with
  | nil =>
    intro p hp
    simp only [splitOnChar, List.mem_singleton] at hp
    simp [hp]
  | cons x xs ih =>
    intro p hp
    simp only [splitOnChar] at hp
    by_cases hx : x = c
    · rw [if_pos hx] at hp
      rcases List.mem_cons.mp hp with h1 | h1
      · simp [h1]
      · exact ih p h1
    · rw [if_neg hx] at hp
      cases h : splitOnChar c xs with
      | nil => exact absurd h (splitOnChar_ne_nil c xs)
      | cons y ys =>
        rw [h] at hp
        rcases List.mem_cons.mp hp with h1 | h1
        · subst h1
          intro hmem
          rcases List.mem_cons.mp hmem with h2 | h2
          · exact hx h2.symm
          · exact ih y (h ▸ List.mem_cons_self y ys) h2
        · exact ih p (h ▸ List.mem_cons_of_mem y h1)

theorem splitOnChar_of_not_mem (c : Char) (l : List Char) (h : c ∉ l) :
    splitOnChar c l = [l] := by
  induction l with
  | nil => simp [splitOnChar]
  | cons x xs ih =>
    simp only [List.mem_cons, not_or] at h
    have hx : ¬ x = c := fun hc => h.1 hc.symm
    simp only [splitOnChar, hx, if_false]
    rw [ih h.2]

theorem splitOnChar_append (c : Char) (a b : List Char) (ha : c ∉ a) :
    splitOnChar c (a ++ c :: b) = a :: splitOnChar c b := by
  induction a with
  | nil => simp [splitOnChar]
  | cons x xs ih =>
    simp only [List.mem_cons, not_or] at ha
    have hx : ¬ x = c := fun hc => ha.1 hc.symm
    have hrec : splitOnChar c (xs ++ c :: b) = xs :: splitOnChar c b := ih ha.2
    show splitOnChar c (x :: (xs ++ c :: b)) = (x :: xs) :: splitOnChar c b
    simp only [splitOnChar, hx, if_false]
    rw [hrec]

/-! ## Digit parsing and zero-padded formatting -/

/-- Value of a decimal digit character, `none` for anything else. -/
def digitVal (c : Char) : Option ℕ :=
  if c.isDigit then some (c.toNat - 48) else none

/-- Parse a non-empty all-digit character list as a natural number
(the digit groups matched by Python `strptime` format directives). -/
def parseNat (l : List Char) : Option ℕ :=
  match l with
  | [] => none
  | _ => l.foldlM (fun acc c => (digitVal c).map (fun v => acc * 10 + v)) 0

/-- Zero-pad a natural number to two decimal digits (Python `%m`, `%d`, `%H`,
`%M`, `%S` formatting). -/
def pad2 (n : ℕ) : String :=
  if n < 10 then "0" ++ Nat.repr n else Nat.repr n

/-- Zero-pad a natural number to four decimal digits (Python `%Y` formatting). -/
def pad4 (n : ℕ) : String :=
  if n < 10 then "000" ++ Nat.repr n
  else if n < 100 then "00" ++ Nat.repr n
  else if n < 1000 then "0" ++ Nat.repr n
  else Nat.repr n

/-! ## Python `datetime`: proleptic-Gregorian calendar model -/

/-- A Python `datetime.datetime` value: naive timestamp with second precision
(the service never uses sub-second fields). -/
structure PyDateTime where
  year : ℕ
  month : ℕ
  day : ℕ
  hour : ℕ
  minute : ℕ
  second : ℕ
deriving DecidableEq, Repr

/-- Gregorian leap-year test. -/
def isLeap (y : ℕ) : Bool :=
  (y % 4 = 0 && y % 100 ≠ 0) || y % 400 = 0

/-- Days in a Gregorian month. -/
def daysInMonth (y m : ℕ) : ℕ :=
  if m = 2 then (if isLeap y then 29 else 28)
  else if m = 4 ∨ m = 6 ∨ m = 9 ∨ m = 11 then 30
  else 31

/-- Python `date + timedelta(days=1)`: advance one calendar day, keeping the
time-of-day fields. -/
def addOneDay (d : PyDateTime) : PyDateTime :=
  if d.day < daysInMonth d.year d.month then { d with day := d.day + 1 }
  else if d.month < 12 then { d with day := 1, month := d.month + 1 }
  else { d with day := 1, month := 1, year := d.year + 1 }

/-- Advance a datetime by `n` calendar days. -/
def addDays : ℕ → PyDateTime → PyDateTime
  | 0, d => d
  | n + 1, d => addOneDay (addDays n d)

theorem addDays_addOneDay (n : ℕ) (d : PyDateTime) :
    addDays n (addOneDay d) = addDays (n + 1) d := by
  induction n with
  | zero => rfl
  | succ k ih => simp only [addDays, ih]

/-- Python `strftime("%Y-%m-%d")`. -/
def fmtDate (d : PyDateTime) : String :=
  pad4 d.year ++ "-" ++ pad2 d.month ++ "-" ++ pad2 d.day

/-- Python `strftime("%Y-%m-%dT00:00:00Z")`: the scheduler's API `datetime`
query parameter (a hard-coded midnight suffix, whatever the time-of-day). -/
def fmtZ (d : PyDateTime) : String :=
  fmtDate d ++ "T00:00:00Z"

/-- Python `strftime("%Y-%m-%d %H:%M:%S")`: the format `save_to_db` stores and
`fetch_and_save_data` parses back. -/
def fmtDT (d : PyDateTime) : String :=
  fmtDate d ++ " " ++ pad2 d.hour ++ ":" ++ pad2 d.minute ++ ":" ++ pad2 d.second

/-- Range validation performed by the `datetime` constructor that
`strptime` builds its result with. -/
def mkValid (y mo d h mi s : ℕ) : Option PyDateTime :=
  if 1 ≤ y ∧ y ≤ 9999 ∧ 1 ≤ mo ∧ mo ≤ 12 ∧ 1 ≤ d ∧ d ≤ daysInMonth y mo
      ∧ h ≤ 23 ∧ mi ≤ 59 ∧ s ≤ 59 then
    some ⟨y, mo, d, h, mi, s⟩
  else none

/-- Python `datetime.strptime(s, "%Y-%m-%d %H:%M:%S")`: `%Y` matches exactly
four digits, the other directives one or two digits; field ranges are
validated; `none` models the raised `ValueError`. -/
def strptime (s : String) : Option PyDateTime :=
  match splitOnChar ' ' s.toList with
  | [dpart, tpart] =>
    match splitOnChar '-' dpart, splitOnChar ':' tpart with
    | [ys, ms, ds], [hs, mins, ss] =>
      if ys.length = 4 ∧ 1 ≤ ms.length ∧ ms.length ≤ 2 ∧ 1 ≤ ds.length ∧ ds.length ≤ 2
          ∧ 1 ≤ hs.length ∧ hs.length ≤ 2 ∧ 1 ≤ mins.length ∧ mins.length ≤ 2
          ∧ 1 ≤ ss.length ∧ ss.length ≤ 2 then
        match parseNat ys, parseNat ms, parseNat ds, parseNat hs, parseNat mins, parseNat ss with
        | some y, some mo, some d, some h, some mi, some sec => mkValid y mo d h mi sec
        | _, _, _, _, _, _ => none
      else none
    | _, _ => none
  | _ => none

/-! ## Geometry and date-range utilities (`build_square`, `convert_to_rfc3339`) -/

/-- A GeoJSON geometry dict as built by `build_square`. -/
structure Geometry where
  type : String
  coordinates : List (List (List ℚ))
deriving DecidableEq, Repr

/-- `build_square(lon, lat, delta)`: the closed square ring
`[[c1, c2, c3, c4, c1]]` around the center point (coordinates modelled
over `ℚ`). -/
def build_square (lon lat delta : ℚ) : Geometry :=
  let c1 := [lon + delta, lat + delta]
  let c2 := [lon + delta, lat - delta]
  let c3 := [lon - delta, lat - delta]
  let c4 := [lon - delta, lat + delta]
  { type := "Polygon", coordinates := [[c1, c2, c3, c4, c1]] }

/-- The characters of the suffix `T00:00:00Z` appended by `convert_to_rfc3339`. -/
def extraPartL : List Char := ['T', '0', '0', ':', '0', '0', ':', '0', '0', 'Z']

/-- `convert_to_rfc3339(date_str)`: split on `/`, format the first two
segments. `none` models the `IndexError` raised when the split yields fewer
than two segments; any further segments are ignored. -/
def convert_to_rfc3339 (date_str : String) : Option String :=
  match splitOnChar '/' date_str.toList with
  | d0 :: d1 :: _ => some (String.mk (d0 ++ extraPartL ++ '/' :: (d1 ++ extraPartL)))
  | _ => none

/-- Ten characters of the shape `YYYY-MM-DD` (digits and dashes). -/
def isDateChars (l : List Char) : Bool :=
  match l with
  | [a, b, c, d, h1, e, f, h2, g, h] =>
    a.isDigit && b.isDigit && c.isDigit && d.isDigit && h1 == '-'
      && e.isDigit && f.isDigit && h2 == '-' && g.isDigit && h.isDigit
  | _ => false

/-- A full RFC3339-style timestamp `YYYY-MM-DDT00:00:00Z` as one side of a
converted range. -/
def isFullTimestamp (l : List Char) : Bool :=
  isDateChars (l.take 10) && l.drop 10 == extraPartL

/-- A well-formed converted range: exactly one `/` separating two full
timestamps. -/
def wellFormedRange (s : String) : Bool :=
  match splitOnChar '/' s.toList with
  | [a, b] => isFullTimestamp a && isFullTimestamp b
  | _ => false

/-! ## Progress store (`get_the_last_date`, `save_to_db`) -/

/-- Lexicographic comparison of character lists (the order the database
applies to the stored `has_info_date` strings). -/
def chLe : List Char → List Char → Bool
  | [], _ => true
  | _ :: _, [] => false
  | a :: as, b :: bs => if a = b then chLe as bs else decide (a < b)

/-- Lexicographic string comparison. -/
def strLe (a b : String) : Bool := chLe a.toList b.toList

/-- Maximum of a list of strings under `strLe` (what
`ORDER BY has_info_date DESC LIMIT 1` retrieves). -/
def maxStr : List String → Option String
  | [] => none
  | s :: rest =>
    match maxStr rest with
    | none => some s
    | some m => some (if strLe s m then m else s)

/-- The append-only progress table `api_acqusitiondatesinfo`: rows of
`(satellite, has_info_date)` with the date stored as a
`"%Y-%m-%d %H:%M:%S"` string. -/
abbrev ProgressDb : Type := List (String × String)

/-- `get_the_last_date(satellite)`: the maximum stored date-string for the
satellite, or `none` when no row exists; `ok = false` models any storage
failure, which the function catches, logs and converts to `None`. -/
def get_the_last_date (ok : Bool) (db : ProgressDb) (satellite : String) : Option String :=
  if ok then
    maxStr ((db.filter (fun r => r.1 = satellite)).map Prod.snd)
  else none

/-- The body of `save_to_db` on its success path: insert one
`(satellite, date)` row, date formatted as `"%Y-%m-%d %H:%M:%S"`. -/
def save_to_db (db : ProgressDb) (_features : List String) (date : PyDateTime)
    (satellite : String) : ProgressDb :=
  db ++ [(satellite, fmtDT date)]

/-! ## Result cache (Redis `set` with TTL) -/

/-- The shared key-value store: key to `(value, ttlSeconds)`. -/
abbrev Cache : Type := String → Option (String × ℕ)

/-- The empty cache. -/
def emptyCache : Cache := fun _ => none

/-- `redis.set(key, value, ex=ttl)`: last-write-wins point update. -/
def cacheSet (c : Cache) (key value : String) (ttl : ℕ) : Cache :=
  fun k => if k = key then some (value, ttl) else c k

/-- `json.dumps` of a list of features, each feature abstracted as its own
serialized JSON text. -/
def dumpsList (fs : List String) : String :=
  "[" ++ String.intercalate ", " fs ++ "]"

/-! ## Acquisition scheduler (`fetch_and_save_data`) -/

/-- Outcome of one acquisition-plan API `GET`: an HTTP 200 with the
(possibly empty) `features` array, a non-200 status, or a raised network
exception. -/
inductive ApiResult where
  | success (features : List String)
  | httpError (status : ℕ)
  | netError
deriving DecidableEq, Repr

/-- Environment oracle: API outcome for a given satellite and formatted
`datetime` query parameter. -/
abbrev Api : Type := String → String → ApiResult

/-- State threaded through one satellite's inner loop: the advancing cursor,
the progress table, the cache, and the trace of probed cursor dates. -/
structure SweepState where
  date : PyDateTime
  db : ProgressDb
  cache : Cache
  probed : List PyDateTime

/-- One iteration of the scheduler's inner `for _ in range(100)` loop:
increment the cursor, probe the API; on 200 with non-empty features run
`save_to_db` and `redis.set(needed_date, dumps(features), ex=604800*3)`;
otherwise only log. -/
def schedStep (api : Api) (satellite : String) (st : SweepState) : SweepState :=
  let date := addOneDay st.date
  let date_str := fmtZ date
  let needed_date := fmtDate date
  match api satellite date_str with
  | ApiResult.success fs =>
    if fs ≠ [] then
      { date := date
        db := save_to_db st.db fs date satellite
        cache := cacheSet st.cache needed_date (dumpsList fs) (604800 * 3)
        probed := st.probed ++ [date] }
    else
      { st with date := date, probed := st.probed ++ [date] }
  | _ => { st with date := date, probed := st.probed ++ [date] }

/-- `n` iterations of the inner loop. -/
def schedRun (api : Api) (satellite : String) : ℕ → SweepState → SweepState
  | 0, st => st
  | n + 1, st => schedRun api satellite n (schedStep api satellite st)

/-- Resolution of the starting cursor in `fetch_and_save_data`:
`date = get_the_last_date(...)`; a falsy value (None or empty string) falls
back to `datetime.now()`; otherwise `strptime` parses it, and `none` models
the **uncaught** `ValueError` on a malformed stored value. -/
def resolveStart (stored : Option String) (now : PyDateTime) : Option PyDateTime :=
  match stored with
  | none => some now
  | some s => if s = "" then some now else strptime s

/-- One satellite's full pass in one sweep cycle: resolve the start cursor,
then run exactly 100 iterations; `none` models the crash on a malformed
stored date. -/
def sensorCycle (api : Api) (ok : Bool) (db : ProgressDb) (cache : Cache)
    (satellite : String) (now : PyDateTime) : Option SweepState :=
  match resolveStart (get_the_last_date ok db satellite) now with
  | none => none
  | some start =>
    some (schedRun api satellite 100 { date := start, db := db, cache := cache, probed := [] })

/-! ## Request-queue worker (`worker`, `get_landsat_items`) -/

/-- Outcome of the catalog-search `POST`: HTTP 200 with the `features` array,
or a non-200 / network failure (both make `get_landsat_items` return `None`). -/
inductive StacOutcome where
  | ok (features : List String)
  | fail
deriving DecidableEq, Repr

/-- A search result value as returned by `get_landsat_items` on HTTP 200. -/
inductive Items where
  | features (fs : List String)
  | notFound
deriving DecidableEq, Repr

/-- `get_landsat_items(lon, lat, time_range, min_cloud, max_cloud)`: builds
the query polygon and payload, then performs the search. The outer `none`
models the `IndexError` propagating out of `convert_to_rfc3339` during
payload construction; `some none` is the Python `None` returned on non-200
or network failure; on 200 it returns the features, or the
`message: not found` dict when the array is empty. -/
def get_landsat_items (outcome : StacOutcome) (lon lat : ℚ) (time_range : String) :
    Option (Option Items) :=
  let _geometry := build_square lon lat (1 / 250)
  match convert_to_rfc3339 time_range with
  | none => none
  | some _ =>
    match outcome with
    | StacOutcome.ok fs =>
      some (some (if fs ≠ [] then Items.features fs else Items.notFound))
    | StacOutcome.fail => some none

/-- `json.dumps(items)` for the value the worker caches: `None` dumps to
`"null"`, a feature list to its JSON array, the not-found dict to its JSON
object. -/
def dumpsResult : Option Items → String
  | none => "null"
  | some (Items.features fs) => dumpsList fs
  | some Items.notFound => "\x7b\"message\": \"not found\"\x7d"

/-- A decoded queue entry before field access: each field of the JSON object
may be absent; cloud bounds arrive as raw strings still to be converted by
`int(...)`. -/
structure RawRequest where
  request_id : Option String
  lon : Option ℚ
  lat : Option ℚ
  min_cloud : Option String
  max_cloud : Option String
  time_range : Option String
deriving DecidableEq

/-- A fully decoded search request. -/
structure SearchRequest where
  request_id : String
  lon : ℚ
  lat : ℚ
  min_cloud : ℤ
  max_cloud : ℤ
  time_range : String
deriving DecidableEq

/-- Python `int(s)` on a JSON string value: optional sign then decimal
digits; `none` models the raised `ValueError`. -/
def pyInt (s : String) : Option ℤ :=
  match s.toList with
  | [] => none
  | '-' :: rest => (parseNat rest).map (fun n => -(n : ℤ))
  | '+' :: rest => (parseNat rest).map (fun n => (n : ℤ))
  | l => (parseNat l).map (fun n => (n : ℤ))

/-- The worker's field accesses `request['request_id']`, ...,
`int(request['min_cloud'])`, `int(request['max_cloud'])`: `none` models the
`KeyError` on a missing field or the `ValueError` on a non-integer cloud
bound. -/
def decodeRequest (r : RawRequest) : Option SearchRequest :=
  match r.request_id, r.lon, r.lat, r.min_cloud, r.max_cloud, r.time_range with
  | some id, some lon, some lat, some mins, some maxs, some tr =>
    match pyInt mins, pyInt maxs with
    | some minc, some maxc =>
      some { request_id := id, lon := lon, lat := lat,
             min_cloud := minc, max_cloud := maxc, time_range := tr }
    | _, _ => none
  | _, _, _, _, _, _ => none

/-- One iteration of the worker loop body. `popped = none`: empty queue;
`popped = some none`: `json.loads` raised on invalid JSON. Field or
conversion errors, and the `IndexError` out of `get_landsat_items`, are
swallowed by the `except` clause, leaving the cache untouched; otherwise the
result is written under `result:<request_id>` with a 120-second TTL. -/
def workerStep (outcome : StacOutcome) (popped : Option (Option RawRequest))
    (cache : Cache) : Cache :=
  match popped with
  | none => cache
  | some none => cache
  | some (some raw) =>
    match decodeRequest raw with
    | none => cache
    | some req =>
      match get_landsat_items outcome req.lon req.lat req.time_range with
      | none => cache
      | some items => cacheSet cache ("result:" ++ req.request_id) (dumpsResult items) 120

/-! ## Helper lemmas -/

theorem toList_mk (l : List Char) : (String.mk l).toList = l := rfl

theorem chLe_refl (l : List Char) : chLe l l = true := by
  induction l with
  | nil => rfl
  | cons a as ih => simp [chLe, ih]

theorem chLe_total (a b : List Char) : chLe a b = true ∨ chLe b a = true := by
  induction a generalizing b with
  | nil => left; rfl
  | cons x xs ih =>
    cases b with
    | nil => right; rfl
    | cons y ys =>
      by_cases hxy : x = y
      · subst hxy
        rcases ih ys with h | h
        · left; simp [chLe, h]
        · right; simp [chLe, h]
      · rcases lt_or_gt_of_ne hxy with h | h
        · left; simp [chLe, hxy, h]
        · right
          have hyx : ¬ y = x := fun hc => hxy hc.symm
          simp [chLe, hyx, h]

theorem chLe_trans (a b c : List Char) (h1 : chLe a b = true) (h2 : chLe b c = true) :
    chLe a c = true := by
  induction a generalizing b c with
  | nil => rfl
  | cons x xs ih =>
    cases b with
    | nil => simp [chLe] at h1
    | cons y ys =>
      cases c with
      | nil => simp [chLe] at h2
      | cons z zs =>
        simp only [chLe] at h1 h2 ⊢
        by_cases hxy : x = y
        · subst hxy
          by_cases hyz : x = z
          · subst hyz
            rw [if_pos rfl] at h1 h2 ⊢
            exact ih ys zs h1 h2
          · rw [if_pos rfl] at h1
            rw [if_neg hyz] at h2 ⊢
            exact h2
        · by_cases hyz : y = z
          · subst hyz
            rw [if_neg hxy] at h1 ⊢
            exact h1
          · rw [if_neg hxy] at h1
            rw [if_neg hyz] at h2
            have hlt : x < z := lt_trans (of_decide_eq_true h1) (of_decide_eq_true h2)
            have hxz : ¬ x = z := fun hc => absurd (hc ▸ hlt) (lt_irrefl z)
            rw [if_neg hxz]
            exact decide_eq_true hlt

theorem strLe_refl (a : String) : strLe a a = true := chLe_refl a.toList

theorem strLe_total (a b : String) : strLe a b = true ∨ strLe b a = true :=
  chLe_total a.toList b.toList

theorem strLe_trans (a b c : String) (h1 : strLe a b = true) (h2 : strLe b c = true) :
    strLe a c = true := chLe_trans a.toList b.toList c.toList h1 h2

theorem maxStr_eq_none (l : List String) (h : maxStr l = none) : l = [] := by
  cases l with
  | nil => rfl
  | cons s rest =>
    simp only [maxStr] at h
    cases hr : maxStr rest with
    | none => rw [hr] at h; simp at h
    | some m => rw [hr] at h; simp at h

theorem maxStr_spec (l : List String) (m : String) (h : maxStr l = some m) :
    m ∈ l ∧ ∀ x ∈ l, strLe x m = true := by
  induction l generalizing m with
  | nil => simp [maxStr] at h
  | cons s rest ih =>
    simp only [maxStr] at h
    cases hrest : maxStr rest with
    | none =>
      rw [hrest] at h
      have : rest = [] := maxStr_eq_none rest hrest
      subst this
      simp only [Option.some_inj] at h
      subst h
      refine ⟨List.mem_cons_self s [], ?_⟩
      intro x hx
      rw [List.mem_singleton] at hx
      rw [hx]
      exact strLe_refl s
    | some m' =>
      rw [hrest] at h
      simp only [Option.some_inj] at h
      rcases ih m' hrest with ⟨hmem, hall⟩
      by_cases hle : strLe s m' = true
      · rw [if_pos hle] at h
        subst h
        refine ⟨List.mem_cons_of_mem s hmem, ?_⟩
        intro x hx
        rcases List.mem_cons.mp hx with h1 | h1
        · rw [h1]; exact hle
        · exact hall x h1
      · rw [if_neg hle] at h
        subst h
        refine ⟨List.mem_cons_self s rest, ?_⟩
        intro x hx
        rcases List.mem_cons.mp hx with h1 | h1
        · rw [h1]; exact strLe_refl s
        · have hm's : strLe m' s = true := by
            rcases strLe_total s m' with h2 | h2
            · exact absurd h2 hle
            · exact h2
          exact strLe_trans x m' s (hall x h1) hm's

theorem schedStep_date (api : Api) (satellite : String) (st : SweepState) :
    (schedStep api satellite st).date = addOneDay st.date := by
  simp only [schedStep]
  cases api satellite (fmtZ (addOneDay st.date)) with
  | success fs =>
    by_cases hfs : fs = []
    · simp [hfs]
    · simp [hfs]
  | httpError c => simp
  | netError => simp

theorem schedStep_probed (api : Api) (satellite : String) (st : SweepState) :
    (schedStep api satellite st).probed = st.probed ++ [addOneDay st.date] := by
  simp only [schedStep]
  cases api satellite (fmtZ (addOneDay st.date)) with
  | success fs =>
    by_cases hfs : fs = []
    · simp [hfs]
    · simp [hfs]
  | httpError c => simp
  | netError => simp

theorem schedRun_probed (api : Api) (satellite : String) (n : ℕ) (st : SweepState) :
    (schedRun api satellite n st).probed
      = st.probed ++ (List.range n).map (fun i => addDays (i + 1) st.date) := by
  induction n generalizing st with
  | zero => simp [schedRun]
  | succ k ih =>
    rw [schedRun, ih (schedStep api satellite st), schedStep_probed,
      schedStep_date, List.range_succ_eq_map]
    simp only [List.map_cons, List.map_map, List.append_assoc, List.singleton_append]
    have h2 : (fun i => addDays (i + 1) (addOneDay st.date))
        = ((fun i => addDays (i + 1) st.date) ∘ Nat.succ) := by
      funext i
      show addDays (i + 1) (addOneDay st.date) = addDays (i.succ + 1) st.date
      rw [addDays_addOneDay]
    rw [h2]
    rfl

/-! ## Claim theorems -/

/-- C7: for every lon, lat and delta, `build_square` returns a polygon whose
single ring has exactly 5 coordinate pairs, the first equal to the last, with
the four corners at (lon+delta, lat+delta), (lon+delta, lat-delta),
(lon-delta, lat-delta), (lon-delta, lat+delta) in that order. -/
theorem build_square_closed_ring (lon lat delta : ℚ) :
    (build_square lon lat delta).coordinates =
      [[[lon + delta, lat + delta], [lon + delta, lat - delta],
        [lon - delta, lat - delta], [lon - delta, lat + delta],
        [lon + delta, lat + delta]]]
    ∧ ((build_square lon lat delta).coordinates.getD 0 []).length = 5
    ∧ ((build_square lon lat delta).coordinates.getD 0 []).head?
        = ((build_square lon lat delta).coordinates.getD 0 []).getLast? := by
  refine ⟨rfl, rfl, rfl⟩

/-- C6 counterexample: the input `"2023-01-01/2023-01-31/"` contains an empty
segment, yet `convert_to_rfc3339` neither raises nor returns a malformed
result — it returns a perfectly well-formed range. -/
theorem convert_empty_segment_well_formed :
    (∃ seg ∈ splitOnChar '/' "2023-01-01/2023-01-31/".toList, seg = ([] : List Char))
    ∧ convert_to_rfc3339 "2023-01-01/2023-01-31/"
        = some "2023-01-01T00:00:00Z/2023-01-31T00:00:00Z"
    ∧ wellFormedRange "2023-01-01T00:00:00Z/2023-01-31T00:00:00Z" = true := by
  refine ⟨⟨[], by decide, rfl⟩, by decide, by decide⟩

/-- C6 (amended): the positive example converts exactly as stated; an input
with no `/` separator raises an `IndexError`; an input whose first or second
segment is empty yields a malformed (non-well-formed) range; empty segments
beyond the second do not cause a failure (see the counterexample). -/
theorem convert_to_rfc3339_spec :
    convert_to_rfc3339 "2023-01-01/2023-01-31"
        = some "2023-01-01T00:00:00Z/2023-01-31T00:00:00Z"
    ∧ (∀ s : String, '/' ∉ s.toList → convert_to_rfc3339 s = none)
    ∧ (∀ (s : String) (l : List Char) (rest : List (List Char)),
        splitOnChar '/' s.toList = [] :: l :: rest →
        ∀ out : String, convert_to_rfc3339 s = some out → wellFormedRange out = false)
    ∧ (∀ (s : String) (l : List Char) (rest : List (List Char)),
        splitOnChar '/' s.toList = l :: [] :: rest →
        ∀ out : String, convert_to_rfc3339 s = some out → wellFormedRange out = false) := by
  refine ⟨by decide, ?_, ?_, ?_⟩
  · intro s h
    simp only [convert_to_rfc3339, splitOnChar_of_not_mem '/' s.toList h]
  · intro s l rest h out hout
    have hl : '/' ∉ l :=
      splitOnChar_not_mem '/' s.toList l
        (by rw [h]; exact List.mem_cons_of_mem _ (List.mem_cons_self _ _))
    simp only [convert_to_rfc3339, h, List.nil_append, Option.some_inj] at hout
    subst hout
    have hnot : '/' ∉ l ++ extraPartL := by
      intro hmem
      rcases List.mem_append.mp hmem with h1 | h1
      · exact hl h1
      · revert h1; decide
    have hsplit : splitOnChar '/' (extraPartL ++ '/' :: (l ++ extraPartL))
        = extraPartL :: [l ++ extraPartL] := by
      rw [splitOnChar_append '/' extraPartL (l ++ extraPartL) (by decide)]
      rw [splitOnChar_of_not_mem '/' (l ++ extraPartL) hnot]
    simp only [wellFormedRange, toList_mk, hsplit]
    rw [show isFullTimestamp extraPartL = false from by decide, Bool.false_and]
  · intro s l rest h out hout
    have hl : '/' ∉ l :=
      splitOnChar_not_mem '/' s.toList l (by rw [h]; exact List.mem_cons_self _ _)
    simp only [convert_to_rfc3339, h, List.nil_append, Option.some_inj] at hout
    subst hout
    have hnot : '/' ∉ l ++ extraPartL := by
      intro hmem
      rcases List.mem_append.mp hmem with h1 | h1
      · exact hl h1
      · revert h1; decide
    have hassoc : l ++ extraPartL ++ '/' :: extraPartL
        = (l ++ extraPartL) ++ '/' :: extraPartL := by
      rw [List.append_assoc]
    have hsplit : splitOnChar '/' (l ++ extraPartL ++ '/' :: extraPartL)
        = (l ++ extraPartL) :: [extraPartL] := by
      rw [hassoc, splitOnChar_append '/' (l ++ extraPartL) extraPartL hnot]
      rw [splitOnChar_of_not_mem '/' extraPartL (by decide)]
    simp only [wellFormedRange, toList_mk, hsplit]
    rw [show isFullTimestamp extraPartL = false from by decide, Bool.and_false]

/-- C6 witness: the amended claim applied at the concrete inputs
`"20230101"` (no separator) and `"/2023-01-31"` (empty first segment). -/
theorem convert_to_rfc3339_spec_witness :
    convert_to_rfc3339 "20230101" = none
    ∧ wellFormedRange "T00:00:00Z/2023-01-31T00:00:00Z" = false :=
  ⟨convert_to_rfc3339_spec.2.1 "20230101" (by decide),
   convert_to_rfc3339_spec.2.2.1 "/2023-01-31"
     ['2', '0', '2', '3', '-', '0', '1', '-', '3', '1'] [] (by decide)
     "T00:00:00Z/2023-01-31T00:00:00Z" (by decide)⟩

/-- C10: for every input containing two or more `/` separators, the
range-conversion returns the first two segments each suffixed with
`T00:00:00Z` and joined by `/`, silently discarding all remaining segments
without raising any error. -/
theorem convert_discards_extra_segments (s : String)
    (h : 2 ≤ countCh '/' s.toList) :
    convert_to_rfc3339 s =
      some (String.mk ((splitOnChar '/' s.toList).getD 0 [] ++ extraPartL
        ++ '/' :: ((splitOnChar '/' s.toList).getD 1 [] ++ extraPartL)))
    ∧ (convert_to_rfc3339 s).isSome = true := by
  have hlen : 3 ≤ (splitOnChar '/' s.toList).length := by
    rw [splitOnChar_length]
    omega
  cases hsp : splitOnChar '/' s.toList with
  | nil => rw [hsp] at hlen; simp at hlen
  | cons d0 tl =>
    cases tl with
    | nil => rw [hsp] at hlen; simp at hlen
    | cons d1 rest =>
      refine ⟨?_, ?_⟩
      · simp only [convert_to_rfc3339, hsp, List.getD_cons_zero, List.getD_cons_succ]
      · simp only [convert_to_rfc3339, hsp, Option.isSome_some]

/-- C10 witness: the theorem applied at the concrete input `"a/b/c"`. -/
theorem convert_discards_extra_segments_witness :
    convert_to_rfc3339 "a/b/c" =
      some (String.mk ((splitOnChar '/' "a/b/c".toList).getD 0 [] ++ extraPartL
        ++ '/' :: ((splitOnChar '/' "a/b/c".toList).getD 1 [] ++ extraPartL)))
    ∧ (convert_to_rfc3339 "a/b/c").isSome = true :=
  convert_discards_extra_segments "a/b/c" (by decide)

/-- C4 counterexample: a malformed stored progress value such as `"garbage"`
does not fall back to the current time — `strptime` raises an uncaught
`ValueError` in the scheduler (modelled as `none`), contradicting the claim
that the scheduler treats malformed persisted data as no progress. -/
theorem malformed_progress_crashes :
    resolveStart (some "garbage") ⟨2024, 1, 1, 0, 0, 0⟩ = none
    ∧ resolveStart (some "garbage") ⟨2024, 1, 1, 0, 0, 0⟩
        ≠ some ⟨2024, 1, 1, 0, 0, 0⟩ := by
  refine ⟨by decide, by decide⟩

/-- C4 (amended): `get_the_last_date` catches every storage failure and
returns absent, and missing (or empty) stored progress makes the scheduler
fall back to the current time; but a malformed non-empty stored value makes
the scheduler raise during parsing rather than fall back (see the
counterexample). -/
theorem get_the_last_date_fallback (db : ProgressDb) (satellite : String)
    (now : PyDateTime) :
    get_the_last_date false db satellite = none
    ∧ resolveStart (get_the_last_date false db satellite) now = some now
    ∧ (get_the_last_date true db satellite = none →
        resolveStart (get_the_last_date true db satellite) now = some now)
    ∧ resolveStart (some "") now = some now := by
  refine ⟨rfl, rfl, ?_, rfl⟩
  intro h
  rw [h]
  rfl

/-- C4 witness: the amended claim applied to an empty progress table. -/
theorem get_the_last_date_fallback_witness :
    resolveStart (get_the_last_date true [] "Landsat-8") ⟨2024, 1, 1, 0, 0, 0⟩
      = some ⟨2024, 1, 1, 0, 0, 0⟩ :=
  (get_the_last_date_fallback [] "Landsat-8" ⟨2024, 1, 1, 0, 0, 0⟩).2.2.1 (by decide)

/-- C2: for a tracked sensor whose stored progress is a maximal record at
date D, one sweep cycle probes exactly the 100 dates D+1, D+2, ..., D+100,
advancing the cursor one calendar day per iteration; for a sensor with no
prior record, the starting cursor is the current wall-clock time and the
probes are now+1, ..., now+100. -/
theorem scheduler_resume_points (api : Api) (db : ProgressDb) (cache : Cache)
    (satellite : String) (now D : PyDateTime) (s : String) :
    (get_the_last_date true db satellite = some s → s ≠ "" → strptime s = some D →
      ∃ fin, sensorCycle api true db cache satellite now = some fin
        ∧ fin.probed = (List.range 100).map (fun i => addDays (i + 1) D)
        ∧ fin.probed.length = 100
        ∧ fin.probed.head? = some (addDays 1 D))
    ∧ (get_the_last_date true db satellite = some s →
        s ∈ (db.filter (fun r => r.1 = satellite)).map Prod.snd
        ∧ ∀ x ∈ (db.filter (fun r => r.1 = satellite)).map Prod.snd, strLe x s = true)
    ∧ (get_the_last_date true db satellite = none →
        ∃ fin, sensorCycle api true db cache satellite now = some fin
          ∧ fin.probed = (List.range 100).map (fun i => addDays (i + 1) now)
          ∧ fin.probed.length = 100) := by
  have hlen : ∀ start : PyDateTime,
      ((List.range 100).map (fun i => addDays (i + 1) start)).length = 100 := by
    intro start
    rw [List.length_map, List.length_range]
  refine ⟨?_, ?_, ?_⟩
  · intro hlast hne hparse
    refine ⟨schedRun api satellite 100 { date := D, db := db, cache := cache, probed := [] },
      ?_, ?_, ?_, ?_⟩
    · simp only [sensorCycle, hlast, resolveStart, if_neg hne, hparse]
    · rw [schedRun_probed]
      simp
    · rw [schedRun_probed]
      simp only [List.nil_append]
      exact hlen D
    · rw [schedRun_probed]
      simp only [List.nil_append]
      rw [show (100 : ℕ) = 99 + 1 from rfl, List.range_succ_eq_map, List.map_cons,
        List.head?_cons]
  · intro hlast
    simp only [get_the_last_date, if_pos rfl] at hlast
    exact maxStr_spec _ s hlast
  · intro hlast
    refine ⟨schedRun api satellite 100 { date := now, db := db, cache := cache, probed := [] },
      ?_, ?_, ?_⟩
    · simp only [sensorCycle, hlast, resolveStart]
    · rw [schedRun_probed]
      simp
    · rw [schedRun_probed]
      simp only [List.nil_append]
      exact hlen now

/-- An always-failing acquisition-plan API used as a concrete oracle. -/
def apiNone : Api := fun _ _ => ApiResult.netError

/-- C2 witness: the theorem applied to a store holding one record
`("Landsat-8", "2024-03-05 00:00:00")`, so D = 2024-03-05 00:00:00. -/
theorem scheduler_resume_points_witness :
    ∃ fin, sensorCycle apiNone true [("Landsat-8", "2024-03-05 00:00:00")] emptyCache
        "Landsat-8" ⟨2025, 1, 1, 0, 0, 0⟩ = some fin
      ∧ fin.probed = (List.range 100).map (fun i => addDays (i + 1) ⟨2024, 3, 5, 0, 0, 0⟩)
      ∧ fin.probed.length = 100
      ∧ fin.probed.head? = some (addDays 1 ⟨2024, 3, 5, 0, 0, 0⟩) :=
  (scheduler_resume_points apiNone [("Landsat-8", "2024-03-05 00:00:00")] emptyCache
      "Landsat-8" ⟨2025, 1, 1, 0, 0, 0⟩ ⟨2024, 3, 5, 0, 0, 0⟩
      "2024-03-05 00:00:00").1 (by decide) (by decide) (by decide)

/-- C3: during a sweep iteration whose probe returns HTTP 200 with a
non-empty features list, the scheduler appends the progress record
(satellite, cursor) and writes the cache entry keyed by the cursor's
calendar date with the dumped features and a 1814400-second (21-day) TTL;
on HTTP 200 with an empty features list, neither the progress table nor the
cache changes. -/
theorem scheduler_persist_on_success (api : Api) (satellite : String)
    (st : SweepState) (fs : List String)
    (hapi : api satellite (fmtZ (addOneDay st.date)) = ApiResult.success fs) :
    (fs ≠ [] →
      (schedStep api satellite st).db
          = st.db ++ [(satellite, fmtDT (addOneDay st.date))]
      ∧ (schedStep api satellite st).cache (fmtDate (addOneDay st.date))
          = some (dumpsList fs, 1814400))
    ∧ (fs = [] →
      (schedStep api satellite st).db = st.db
      ∧ (schedStep api satellite st).cache = st.cache) := by
  constructor
  · intro hfs
    simp only [schedStep, hapi, if_pos hfs, save_to_db, cacheSet]
    refine ⟨by trivial, ?_⟩
    rw [if_pos trivial]
  · intro hfs
    subst hfs
    simp only [schedStep, hapi]
    exact ⟨rfl, rfl⟩

/-- An acquisition-plan API that always answers 200 with one feature. -/
def apiF1 : Api := fun _ _ => ApiResult.success ["f1"]

/-- C3 witness: probing 2024-03-05 for Landsat-8 from the cursor 2024-03-04
appends the record and writes the dated cache entry. -/
theorem scheduler_persist_on_success_witness :
    (schedStep apiF1 "Landsat-8"
        { date := ⟨2024, 3, 4, 0, 0, 0⟩, db := [], cache := emptyCache, probed := [] }).db
      = [] ++ [("Landsat-8", fmtDT (addOneDay ⟨2024, 3, 4, 0, 0, 0⟩))]
    ∧ (schedStep apiF1 "Landsat-8"
        { date := ⟨2024, 3, 4, 0, 0, 0⟩, db := [], cache := emptyCache, probed := [] }).cache
        (fmtDate (addOneDay ⟨2024, 3, 4, 0, 0, 0⟩))
      = some (dumpsList ["f1"], 1814400) :=
  (scheduler_persist_on_success apiF1 "Landsat-8"
      { date := ⟨2024, 3, 4, 0, 0, 0⟩, db := [], cache := emptyCache, probed := [] }
      ["f1"] rfl).1 (by decide)

/-- C8: the scheduler's feature-cache key is the bare calendar date with no
sensor qualifier, so successful writes for two different sensors probing the
same date target the same key, and the later write overwrites the earlier
one. -/
theorem cache_key_collision (api : Api) (sat1 sat2 : String) (d : PyDateTime)
    (db1 db2 : ProgressDb) (c : Cache) (pr1 pr2 : List PyDateTime)
    (fs1 fs2 : List String)
    (h1 : api sat1 (fmtZ (addOneDay d)) = ApiResult.success fs1)
    (h2 : api sat2 (fmtZ (addOneDay d)) = ApiResult.success fs2)
    (hfs1 : fs1 ≠ []) (hfs2 : fs2 ≠ []) :
    (schedStep api sat1 { date := d, db := db1, cache := c, probed := pr1 }).cache
        (fmtDate (addOneDay d)) = some (dumpsList fs1, 1814400)
    ∧ (schedStep api sat2
        { date := d, db := db2,
          cache := (schedStep api sat1
            { date := d, db := db1, cache := c, probed := pr1 }).cache,
          probed := pr2 }).cache
        (fmtDate (addOneDay d)) = some (dumpsList fs2, 1814400) := by
  constructor
  · simp only [schedStep, h1, if_pos hfs1, cacheSet]
    rw [if_pos trivial]
  · simp only [schedStep, h2, if_pos hfs2, cacheSet]
    rw [if_pos trivial]

/-- An acquisition-plan API returning a different single feature per
satellite. -/
def apiTwo : Api := fun satellite _ =>
  if satellite = "Landsat-8" then ApiResult.success ["f1"] else ApiResult.success ["f2"]

/-- C8 witness: Landsat-8 then Landsat-9 both writing results for 2024-03-05
collide on the key `2024-03-05`; the Landsat-9 value wins. -/
theorem cache_key_collision_witness :
    (schedStep apiTwo "Landsat-8"
        { date := ⟨2024, 3, 4, 0, 0, 0⟩, db := [], cache := emptyCache, probed := [] }).cache
        (fmtDate (addOneDay ⟨2024, 3, 4, 0, 0, 0⟩)) = some (dumpsList ["f1"], 1814400)
    ∧ (schedStep apiTwo "Landsat-9"
        { date := ⟨2024, 3, 4, 0, 0, 0⟩, db := [],
          cache := (schedStep apiTwo "Landsat-8"
            { date := ⟨2024, 3, 4, 0, 0, 0⟩, db := [], cache := emptyCache,
              probed := [] }).cache,
          probed := [] }).cache
        (fmtDate (addOneDay ⟨2024, 3, 4, 0, 0, 0⟩)) = some (dumpsList ["f2"], 1814400) :=
  cache_key_collision apiTwo "Landsat-8" "Landsat-9" ⟨2024, 3, 4, 0, 0, 0⟩ [] []
    emptyCache [] [] ["f1"] ["f2"] (by decide) (by decide) (by decide) (by decide)

/-- C1 counterexample: a dequeued request whose catalog search fails (non-200
or network error) does get a `result:<request id>` cache key — the worker
writes `json.dumps(None) = "null"` under it with a 120-second TTL, so a
result does appear for that request, contradicting the claim that no result
key is ever written. -/
theorem worker_failure_writes_key :
    workerStep StacOutcome.fail
      (some (some { request_id := some "abc", lon := some 10, lat := some 20,
                    min_cloud := some "0", max_cloud := some "50",
                    time_range := some "2024-01-01/2024-01-02" }))
      emptyCache "result:abc" = some ("null", 120)
    ∧ workerStep StacOutcome.fail
      (some (some { request_id := some "abc", lon := some 10, lat := some 20,
                    min_cloud := some "0", max_cloud := some "50",
                    time_range := some "2024-01-01/2024-01-02" }))
      emptyCache "result:abc" ≠ none := by
  refine ⟨by decide, by decide⟩

/-- C1 (amended): for every dequeued request that decodes and whose time
range converts, a failed catalog search (non-200 or network error) makes
`get_landsat_items` return `None` and the worker still writes the key
`result:<request id>` holding the JSON value `null` with a 120-second TTL;
the request itself is dropped without retry. -/
theorem worker_failure_result_null (raw : RawRequest) (req : SearchRequest)
    (cache : Cache) (hdec : decodeRequest raw = some req)
    (hconv : (convert_to_rfc3339 req.time_range).isSome = true) :
    workerStep StacOutcome.fail (some (some raw)) cache
      = cacheSet cache ("result:" ++ req.request_id) "null" 120 := by
  simp only [workerStep, hdec, get_landsat_items]
  cases hc : convert_to_rfc3339 req.time_range with
  | none => rw [hc] at hconv; simp at hconv
  | some tr => rfl

/-- C1 witness: the amended claim applied to the request `"abc"`. -/
theorem worker_failure_result_null_witness :
    workerStep StacOutcome.fail
      (some (some { request_id := some "abc", lon := some 10, lat := some 20,
                    min_cloud := some "0", max_cloud := some "50",
                    time_range := some "2024-01-01/2024-01-02" }))
      emptyCache
      = cacheSet emptyCache ("result:" ++ "abc") "null" 120 :=
  worker_failure_result_null
    { request_id := some "abc", lon := some 10, lat := some 20,
      min_cloud := some "0", max_cloud := some "50",
      time_range := some "2024-01-01/2024-01-02" }
    { request_id := "abc", lon := 10, lat := 20, min_cloud := 0, max_cloud := 50,
      time_range := "2024-01-01/2024-01-02" }
    emptyCache (by decide) (by decide)

/-- C5: for every dequeued request that decodes and whose catalog search
returns HTTP 200, the worker writes `result:<request id>` holding the dumped
features list when the response has features, and the explicit not-found
marker when it is empty; both with a 120-second TTL. -/
theorem worker_success_result (raw : RawRequest) (req : SearchRequest)
    (cache : Cache) (fs : List String)
    (hdec : decodeRequest raw = some req)
    (hconv : (convert_to_rfc3339 req.time_range).isSome = true) :
    (fs ≠ [] →
      workerStep (StacOutcome.ok fs) (some (some raw)) cache
        = cacheSet cache ("result:" ++ req.request_id) (dumpsList fs) 120)
    ∧ (fs = [] →
      workerStep (StacOutcome.ok fs) (some (some raw)) cache
        = cacheSet cache ("result:" ++ req.request_id)
            "\x7b\"message\": \"not found\"\x7d" 120) := by
  constructor
  · intro hfs
    simp only [workerStep, hdec, get_landsat_items]
    cases hc : convert_to_rfc3339 req.time_range with
    | none => rw [hc] at hconv; simp at hconv
    | some tr => simp [hfs, dumpsResult]
  · intro hfs
    subst hfs
    simp only [workerStep, hdec, get_landsat_items]
    cases hc : convert_to_rfc3339 req.time_range with
    | none => rw [hc] at hconv; simp at hconv
    | some tr => simp [dumpsResult]

/-- C5 witness: the theorem applied to the request `"abc"` with a 200
response carrying one feature, and again with an empty feature list. -/
theorem worker_success_result_witness :
    workerStep (StacOutcome.ok ["f1"])
      (some (some { request_id := some "abc", lon := some 10, lat := some 20,
                    min_cloud := some "0", max_cloud := some "50",
                    time_range := some "2024-01-01/2024-01-02" }))
      emptyCache
      = cacheSet emptyCache ("result:" ++ "abc") (dumpsList ["f1"]) 120 :=
  (worker_success_result
    { request_id := some "abc", lon := some 10, lat := some 20,
      min_cloud := some "0", max_cloud := some "50",
      time_range := some "2024-01-01/2024-01-02" }
    { request_id := "abc", lon := 10, lat := 20, min_cloud := 0, max_cloud := 50,
      time_range := "2024-01-01/2024-01-02" }
    emptyCache ["f1"] (by decide) (by decide)).1 (by decide)

/-- C9: a popped queue entry that cannot be processed — invalid JSON, a
missing required field, or a cloud-cover bound not convertible to an
integer — leaves the cache untouched: the worker catches the exception and
writes no `result:` key; the request is gone from the queue and permanently
lost. -/
theorem worker_drops_malformed (outcome : StacOutcome) (cache : Cache)
    (raw : RawRequest) :
    workerStep outcome (some none) cache = cache
    ∧ (decodeRequest raw = none →
        workerStep outcome (some (some raw)) cache = cache) := by
  constructor
  · rfl
  · intro h
    simp only [workerStep, h]

/-- C9 witness: the theorem applied to a request whose `min_cloud` value
`"abc"` is not convertible to an integer. -/
theorem worker_drops_malformed_witness :
    workerStep StacOutcome.fail
      (some (some { request_id := some "abc", lon := some 10, lat := some 20,
                    min_cloud := some "abc", max_cloud := some "50",
                    time_range := some "2024-01-01/2024-01-02" }))
      emptyCache = emptyCache :=
  (worker_drops_malformed StacOutcome.fail emptyCache
    { request_id := some "abc", lon := some 10, lat := some 20,
      min_cloud := some "abc", max_cloud := some "50",
      time_range := some "2024-01-01/2024-01-02" }).2 (by decide)
